import Mathlib

/-!
Verification development for the agent-chat bridge
(`cutesy-agent-router-refactor.py`): a shallow embedding of the PTY agent's
output pipeline (`strip_ansi_codes`, `_process_output`, `get_output`,
`send_command`) and of the bridge (`handle_command`, `handle_message`,
`_output_monitor`), with theorems about prompt-state clearing, output
draining, UI filtering, dedup relaying and command idempotence.

Text is modelled as `List Char`.  Python's `str.strip`, `str.lower`,
`str.split`, `in` (substring) and `dict.fromkeys` (order-preserving
dedup) are embedded below.  Stateful methods become explicit
state-passing functions; the fallible terminal write (`os.write`) is an
explicit outcome parameter.
-/

set_option maxHeartbeats 1000000

namespace Router

/-- Text as a list of characters. -/
abbrev Str := List Char

/-- Python `str.isspace` / regex `\s` character set (Unicode whitespace,
as used by `str.strip`, `str.split()` and the `\s` class of the box-line
regex in `_process_output`). -/
def isPySpace (c : Char) : Bool :=
  (0x09 ≤ c.toNat && c.toNat ≤ 0x0D) ||
  (0x1C ≤ c.toNat && c.toNat ≤ 0x1F) ||
  c.toNat = 0x20 || c.toNat = 0x85 || c.toNat = 0xA0 ||
  c.toNat = 0x1680 ||
  (0x2000 ≤ c.toNat && c.toNat ≤ 0x200A) ||
  c.toNat = 0x2028 || c.toNat = 0x2029 ||
  c.toNat = 0x202F || c.toNat = 0x205F || c.toNat = 0x3000

/-- Python `str.strip()`: drop leading and trailing whitespace. -/
def pyStrip (s : Str) : Str :=
  ((s.dropWhile isPySpace).reverse.dropWhile isPySpace).reverse

/-- Python `str.lower()` (ASCII-adequate model via `Char.toLower`). -/
def pyLower (s : Str) : Str := s.map Char.toLower

/-- Test that `needle` starts `s`. -/
def startsWithStr (needle s : Str) : Bool := s.take needle.length = needle

/-- Python `needle in hay` substring test. -/
def containsStr (hay needle : Str) : Bool :=
  (List.range (hay.length + 1)).any (fun i => startsWithStr needle (hay.drop i))

/-! ### `strip_ansi_codes`

The source removes every non-overlapping match of
`\x1B(?:[@-Z\\-_]|\[[0-?]*[\x20-\x2F]*[@-~])` (Python `re.sub`, scanning
left to right; `[\x20-\x2F]` is written `[ -slash]` in the source).  The first alternative is a single character in `0x40..0x5F`
other than `[` (`[` = `0x5B` is excluded from `[@-Z\\-_]`), the second is
CSI: `[`, then parameter bytes `0x30..0x3F`, then intermediate bytes
`0x20..0x2F`, then one final byte `0x40..0x7E`.  The three CSI character
classes are pairwise disjoint, so the greedy match never backtracks.
We embed this as a character-by-character state machine: since none of
the provisionally consumed bytes of a failed CSI attempt can equal `ESC`,
re-scanning them (as `re.sub` does after a failed match) can never start
a new match, so flushing them verbatim is equivalent. -/

/-- The escape character `\x1B`. -/
def escChar : Char := Char.ofNat 27

/-- Second byte of a two-byte escape sequence: `[@-Z\\-_]` = `0x40..0x5F`
without `[` (`0x5B`). -/
def isEscSingle (c : Char) : Bool :=
  0x40 ≤ c.toNat && c.toNat ≤ 0x5F && c.toNat ≠ 0x5B

/-- CSI parameter byte `[0-?]` = `0x30..0x3F`. -/
def isCsiParam (c : Char) : Bool := 0x30 ≤ c.toNat && c.toNat ≤ 0x3F

/-- CSI intermediate byte (`0x20..0x2F`). -/
def isCsiInter (c : Char) : Bool := 0x20 ≤ c.toNat && c.toNat ≤ 0x2F

/-- CSI final byte `[@-~]` = `0x40..0x7E`. -/
def isCsiFinal (c : Char) : Bool := 0x40 ≤ c.toNat && c.toNat ≤ 0x7E

/-- Scanner state: outside any candidate match, after `ESC`, or inside a
CSI candidate holding the parameter and intermediate bytes read so far. -/
inductive AnsiMode where
  | normal : AnsiMode
  | esc : AnsiMode
  | csi : Str → Str → AnsiMode
deriving DecidableEq

/-- Characters to emit when the input ends inside a candidate match
(the candidate never completed, so `re.sub` keeps them). -/
def ansiFlush : AnsiMode → Str
  | .normal => []
  | .esc => [escChar]
  | .csi ps is => escChar :: '[' :: (ps ++ is)

/-- One scanner step: emitted characters and the next state. -/
def ansiStep (m : AnsiMode) (c : Char) : Str × AnsiMode :=
  match m with
  | .normal => if c = escChar then ([], .esc) else ([c], .normal)
  | .esc =>
    if isEscSingle c then ([], .normal)
    else if c = '[' then ([], .csi [] [])
    else if c = escChar then ([escChar], .esc)
    else ([escChar, c], .normal)
  | .csi ps is =>
    if is.isEmpty && isCsiParam c then ([], .csi (ps ++ [c]) [])
    else if isCsiInter c then ([], .csi ps (is ++ [c]))
    else if isCsiFinal c then ([], .normal)
    else if c = escChar then (ansiFlush (.csi ps is), .esc)
    else (ansiFlush (.csi ps is) ++ [c], .normal)

/-- Run the scanner over the input, flushing any pending candidate at the
end. -/
def stripAnsiGo : AnsiMode → Str → Str
  | m, [] => ansiFlush m
  | m, c :: rest => (ansiStep m c).1 ++ stripAnsiGo (ansiStep m c).2 rest

/-- Source `strip_ansi_codes`: remove ANSI escape sequences. -/
def strip_ansi_codes (s : Str) : Str := stripAnsiGo .normal s

/-! ### PTYAgent state and configuration -/

/-- The keyword lists `_process_output` reads from the agent's config
(defaults as in the source's `main`). -/
structure AgentConfig where
  welcome_keywords : List Str
  mode_keywords : List Str
  ui_indicators : List Str
  response_markers : List Str
  repetitive_ui_markers : List Str

/-- Mutable `PTYAgent` state relevant to the embedded methods: the
running flag, the prompt state written by the reader and cleared by
`send_command`, the prompt timestamp, and the output queue (a deque with
`maxlen=100`, modelled as a list with newest elements at the end). -/
structure AgentState where
  is_running_flag : Bool
  waiting_for_input : Bool
  input_prompt : Str
  last_prompt_time : Nat
  output_queue : List Str
deriving DecidableEq

/-- Python `deque(maxlen=100).append`: append on the right, dropping from the
left when the queue already holds 100 items. -/
def appendBounded (q : List Str) (x : Str) : List Str :=
  let q' := q ++ [x]
  if 100 < q'.length then q'.drop (q'.length - 100) else q'

/-- Source `any(keyword in clean_output.lower() for keyword in welcome_keywords)`. -/
def is_welcome_screen (cfg : AgentConfig) (clean : Str) : Bool :=
  cfg.welcome_keywords.any (fun k => containsStr (pyLower clean) k)

/-- Source `any(keyword in clean_output.lower() for keyword in mode_keywords)`. -/
def is_mode_switch (cfg : AgentConfig) (clean : Str) : Bool :=
  cfg.mode_keywords.any (fun k => containsStr (pyLower clean) k)

/-- A character of the box-line class `[\s│┃╭╰╮╯]`. -/
def isBoxChar (c : Char) : Bool :=
  isPySpace c || c = '│' || c = '┃' || c = '╭' || c = '╰' || c = '╮' || c = '╯'

/-- Source `re.match(box-line regex, clean_output.strip())`: the stripped text is
nonempty and consists only of box-line-class characters. -/
def is_box_line (stripped : Str) : Bool :=
  !stripped.isEmpty && stripped.all isBoxChar

/-- The six single-glyph strings `["╭", "╰", "│", "┃", "╮", "╯"]`. -/
def singleGlyphs : List Str := [['╭'], ['╰'], ['│'], ['┃'], ['╮'], ['╯']]

/-- Source `is_mostly_empty_ui`: the stripped text is one of the box glyphs or a
box line, and has at most 3 characters. -/
def is_mostly_empty_ui (clean : Str) : Bool :=
  let st := pyStrip clean
  (decide (st ∈ singleGlyphs) || is_box_line st) && decide (st.length ≤ 3)

/-- Source `_process_output`: strip ANSI codes, drop fragments classified as
decorative UI (unless a welcome-screen or mode-switch keyword is
present), set the prompt state on a prompt-pattern match, and enqueue the
cleaned fragment.  `promptMatch` abstracts
`any(re.search(p, clean, IGNORECASE) for p in prompt_patterns)` — the
source's fixed list of interactive-prompt regexes; the enqueue/filter
decision does not depend on it.  `now` is `time.time()`. -/
def process_output (cfg : AgentConfig) (promptMatch : Str → Bool) (now : Nat)
    (st : AgentState) (output : Str) : AgentState :=
  let clean := strip_ansi_codes output
  if !is_welcome_screen cfg clean && !is_mode_switch cfg clean &&
      is_mostly_empty_ui clean then
    st
  else
    let st1 :=
      if promptMatch clean then
        { st with waiting_for_input := true, input_prompt := pyStrip clean,
                  last_prompt_time := now }
      else st
    { st1 with output_queue := appendBounded st1.output_queue clean }

/-! ### `send_command` -/

/-- Outcome of the `os.write` call inside `send_command`: success, or an
exception carrying the message interpolated into `f"Error: {e}"`. -/
inductive WriteOutcome where
  | ok : WriteOutcome
  | err : Str → WriteOutcome
deriving DecidableEq

/-- Source `send_command`: refuse when not running; otherwise clear the prompt
state, then write `command` followed by the CRLF line terminator to the
terminal.  Returns the result string, the new state, and the bytes the
terminal received (`none` when nothing was written). -/
def send_command (st : AgentState) (command : Str) (w : WriteOutcome) :
    Str × AgentState × Option Str :=
  if !st.is_running_flag then (("Error: Agent not running").toList, st, none)
  else
    let st1 := { st with waiting_for_input := false, input_prompt := [] }
    match w with
    | .ok => (("Command sent").toList, st1, some (command ++ ['\r', '\n']))
    | .err e => (("Error: ").toList ++ e, st1, none)

/-! ### `get_output` -/

/-- The drain loop of `get_output`: pop fragments while the queue is
nonempty and the combined text is under 4000 characters; a fragment that
would push the combined text over 4000 is pushed back unsplit. -/
def drainOutput : List Str → Str → Str × List Str
  | [], combined => (combined, [])
  | chunk :: rest, combined =>
    if combined.length < 4000 then
      if 4000 < (combined ++ chunk).length then (combined, chunk :: rest)
      else drainOutput rest (combined ++ chunk)
    else (combined, chunk :: rest)

/-- Source `get_output` on the queue: `none` when the queue is empty or the
combined text strips to blank, otherwise the stripped combined text (the
content of the returned `AGENT_OUTPUT` message) and the remaining
queue. -/
def get_output (q : List Str) : Option Str × List Str :=
  if q.isEmpty then (none, q)
  else
    let r := drainOutput q []
    if (pyStrip r.1).isEmpty then (none, r.2) else (some (pyStrip r.1), r.2)

/-! ### AgentChatBridge: `handle_command` and `handle_message` -/

/-- Source `PTYAgent.start`: on success sets `is_running_flag`; on failure the
state is unchanged and `False` is returned.  `succeeds` abstracts whether
the spawned child survives the grace interval. -/
def agent_start (a : AgentState) (succeeds : Bool) : Bool × AgentState :=
  if succeeds then (true, { a with is_running_flag := true }) else (false, a)

/-- Source `PTYAgent.stop`: clears `is_running_flag` (best-effort child
termination has no further observable state here). -/
def agent_stop (a : AgentState) : AgentState := { a with is_running_flag := false }

/-- Bridge state observable by `handle_command`: the agent, whether
`output_monitor_task` is set, and counters of `agent.start()` calls and
of `asyncio.create_task(self._output_monitor())` launches. -/
structure BridgeState where
  agent : AgentState
  output_monitor_task : Bool
  monitor_launches : Nat
  start_calls : Nat
deriving DecidableEq

/-- The `/start` success reply text. -/
def startedReply : Str :=
  ("✅ Agent started\n\nCommands:\n• Natural language: `show me the current directory`\n• CLI commands: `git status`, `ls`\n• `/stop` - Stop agent\n• `/status` - Check status").toList

/-- The `/status` reply text. -/
def statusReply (a : AgentState) : Str :=
  ("Status: ").toList ++
  (if a.is_running_flag then ("🟢 Running").toList else ("🔴 Stopped").toList) ++
  (if a.waiting_for_input then ("\n⏸️ Waiting for input").toList else [])

/-- Source `handle_command`: authorization check, then the `/start`, `/stop`,
`/status` branches.  Returns the replies sent to the user and the new
bridge state.  `startSucceeds` feeds `agent_start` when it is called. -/
def handle_command (bst : BridgeState) (authorized_user_id sender : Nat)
    (cmd : Str) (startSucceeds : Bool) : List Str × BridgeState :=
  if sender ≠ authorized_user_id then ([("❌ Unauthorized").toList], bst)
  else if cmd = ("/start").toList then
    if bst.agent.is_running_flag then ([("ℹ️ Agent already running").toList], bst)
    else
      let r := agent_start bst.agent startSucceeds
      let bst1 := { bst with agent := r.2, start_calls := bst.start_calls + 1 }
      if r.1 then
        let bst2 :=
          if bst1.output_monitor_task then bst1
          else { bst1 with output_monitor_task := true,
                           monitor_launches := bst1.monitor_launches + 1 }
        ([startedReply], bst2)
      else ([("❌ Failed to start agent").toList], bst1)
  else if cmd = ("/stop").toList then
    ([("🛑 Agent stopped").toList], { bst with agent := agent_stop bst.agent })
  else if cmd = ("/status").toList then ([statusReply bst.agent], bst)
  else ([], bst)

/-- Result of `handle_message`: the replies sent to the user, the agent
state afterwards, the bytes written to the terminal, and how many times
`send_command` was called. -/
structure MsgResult where
  replies : List Str
  agent : AgentState
  written : Option Str
  send_command_calls : Nat
deriving DecidableEq

/-- Source `handle_message`: authorization check, running check, then
`send_command(text.strip())` — its result is NOT inspected — followed by
the unconditional `"📤 Command sent: …"` acknowledgment, a 2-second
sleep, and one `get_output()` whose content (if any) is also sent.
`arrivals` are the fragments the reader thread enqueues during the
sleep. -/
def handle_message (st : AgentState) (authorized_user_id sender : Nat)
    (text : Str) (w : WriteOutcome) (arrivals : List Str) : MsgResult :=
  if sender ≠ authorized_user_id then
    ⟨[("❌ Unauthorized").toList], st, none, 0⟩
  else if !st.is_running_flag then
    ⟨[("❌ Agent not running. Use /start").toList], st, none, 0⟩
  else
    let message_text := pyStrip text
    let r := send_command st message_text w
    let ack := ("📤 Command sent: ").toList ++ message_text
    let q1 := arrivals.foldl appendBounded r.2.1.output_queue
    let o := get_output q1
    let st2 := { r.2.1 with output_queue := o.2 }
    match o.1 with
    | some content => ⟨[ack, content], st2, r.2.2, 1⟩
    | none => ⟨[ack], st2, r.2.2, 1⟩

/-! ### `_output_monitor`: cleaning, UI scoring, dedup relay

One loop iteration that obtained `content` from `get_output`.  Python's
`hash(normalized)` is modelled by the normalized text itself: texts have
identical fingerprints exactly when their normalized forms are equal (the
case the dedup window is about). -/

/-- Python `"…".split("\n")` (keeps empty pieces). -/
def splitOnChar (sep : Char) : Str → List Str
  | [] => [[]]
  | c :: rest =>
    match splitOnChar sep rest with
    | [] => [[c]]
    | h :: t => if c = sep then [] :: h :: t else (c :: h) :: t

/-- Python `list(dict.fromkeys(lines))`: dedup keeping first occurrences,
in order. -/
def dedupFirst (seen : List Str) : List Str → List Str
  | [] => []
  | x :: rest =>
    if x ∈ seen then dedupFirst seen rest else x :: dedupFirst (x :: seen) rest

/-- One step of Python `str.split()` (whitespace split, no empties),
folded from the right. -/
def pySplitStep (c : Char) (acc : Str × List Str) : Str × List Str :=
  if isPySpace c then ([], if acc.1.isEmpty then acc.2 else acc.1 :: acc.2)
  else (c :: acc.1, acc.2)

/-- Python `str.split()`: whitespace-run split, dropping empty pieces. -/
def pySplit (s : Str) : List Str :=
  let r := s.foldr pySplitStep ([], [])
  if r.1.isEmpty then r.2 else r.1 :: r.2

/-- Python `sep.join(xs)`. -/
def pyJoin (sep : Str) (xs : List Str) : Str := (xs.intersperse sep).flatten

/-- The cleaning step of `_output_monitor`: strip ANSI codes, strip each
line, drop duplicate lines keeping first occurrences, rejoin. -/
def monitorClean (content : Str) : Str :=
  pyJoin ['\n'] (dedupFirst [] ((splitOnChar '\n' (strip_ansi_codes content)).map pyStrip))

/-- Python `" ".join(clean_output.split())` — the normalized-whitespace text
whose hash is the dedup fingerprint. -/
def fingerprint (content : Str) : Str := pyJoin [' '] (pySplit (monitorClean content))

/-- Python `deque(maxlen=10).append` for the recent-output window. -/
def pushWindow (recent : List Str) (h : Str) : List Str :=
  let r := recent ++ [h]
  if 10 < r.length then r.drop (r.length - 10) else r

/-- Source `ui_score`: how many configured UI indicator substrings occur in the
cleaned block (each indicator counted once). -/
def monitorUiScore (cfg : AgentConfig) (clean : Str) : Nat :=
  cfg.ui_indicators.countP (fun i => containsStr clean i)

/-- Source `is_agent_response`: a configured response marker occurs. -/
def monitorAgentResponse (cfg : AgentConfig) (clean : Str) : Bool :=
  cfg.response_markers.any (fun m => containsStr clean m)

/-- Source `is_repetitive_ui`: `ui_score >= 1` and a configured repetitive-UI
marker occurs. -/
def monitorRepetitiveUi (cfg : AgentConfig) (clean : Str) : Bool :=
  decide (1 ≤ monitorUiScore cfg clean) &&
  cfg.repetitive_ui_markers.any (fun m => containsStr clean m)

/-- Source `is_mostly_ui`: `ui_ratio > 0.3` — with
`ui_ratio = ui_score / max(1, word count)` this float comparison is exact
for these magnitudes and equals `10*ui_score > 3*max(1, words)` — or
`ui_score >= 2` on text of at most 100 stripped characters. -/
def monitorMostlyUi (cfg : AgentConfig) (clean : Str) : Bool :=
  decide (3 * max 1 (pySplit clean).length < 10 * monitorUiScore cfg clean) ||
  (decide (2 ≤ monitorUiScore cfg clean) && decide ((pyStrip clean).length ≤ 100))

/-- The third `should_filter` disjunct: `ui_score >= 3` on text of at
most 50 stripped characters. -/
def monitorHeavyUi (cfg : AgentConfig) (clean : Str) : Bool :=
  decide (3 ≤ monitorUiScore cfg clean) && decide ((pyStrip clean).length ≤ 50)

/-- One `_output_monitor` iteration on `content`: the message sent to the
transport (if not suppressed) and the updated recent-output window.
`should_filter` is `msg_hash in recent_messages` (here: the fingerprint
is in the window) or repetitive UI that is not an agent response and is
mostly UI, or heavy UI; a filtered repetitive-UI block still records its
fingerprint. -/
def output_monitor_step (cfg : AgentConfig) (recent : List Str) (content : Str) :
    Option Str × List Str :=
  if decide (fingerprint content ∈ recent) ||
     (monitorRepetitiveUi cfg (monitorClean content) &&
      !monitorAgentResponse cfg (monitorClean content) &&
      monitorMostlyUi cfg (monitorClean content)) ||
     monitorHeavyUi cfg (monitorClean content) then
    (none,
     if monitorRepetitiveUi cfg (monitorClean content) then
       pushWindow recent (fingerprint content)
     else recent)
  else (some (monitorClean content), pushWindow recent (fingerprint content))

/-- Fold `output_monitor_step` over a sequence of output blocks: per-block
send decisions and the final window. -/
def output_monitor_run (cfg : AgentConfig) (recent : List Str) :
    List Str → List (Option Str) × List Str
  | [] => ([], recent)
  | b :: bs =>
    let r := output_monitor_step cfg recent b
    let rest := output_monitor_run cfg r.2 bs
    (r.1 :: rest.1, rest.2)

/-- The recent-output window after processing `blocks` from `recent`. -/
def recentAfter (cfg : AgentConfig) (recent : List Str) (blocks : List Str) : List Str :=
  (output_monitor_run cfg recent blocks).2

/-- The per-block send decisions over `blocks` starting from `recent`. -/
def sentList (cfg : AgentConfig) (recent : List Str) (blocks : List Str) :
    List (Option Str) :=
  (output_monitor_run cfg recent blocks).1

/-! ### Spec-modelled bridge message state machine

The repository's size- and rate-limited bridge (`process_message`, with
`_max_message_length` and `_rate_limit_ms`) is exercised by the unit
tests but its module is not among the source files here; the functions
below are modelled from the specification's words. -/

/-- Modelled from the spec: the configuration of the per-message state
machine of `AgentChatBridge` (§4.4) — the authorized identity, the
recognized control/custom command texts, the maximum free-text length,
and the minimum interval between accepted free-text messages.  The
implementing module (`process_message` with `_max_message_length`,
`_rate_limit_ms`) is missing from the sources; only its tests are
present. -/
structure SpecBridgeConfig where
  authorizedUser : Nat
  controlCommands : List Str
  maxMessageLength : Nat
  minInterval : Nat

/-- Modelled from the spec: per-session bridge state — the time of this
sender's last accepted free-text message. -/
structure SpecBridgeState where
  lastMessageTime : Option Nat
deriving DecidableEq

/-- Modelled from the spec: the outcome of the state machine for one
inbound message — rejected as unauthorized, routed as a control command,
rejected with the size-limit notice, rejected with the "please wait"
notice, or dispatched to `sendCommand`. -/
inductive SpecOutcome where
  | unauthorized : SpecOutcome
  | routedCommand : SpecOutcome
  | tooLong : SpecOutcome
  | rateLimited : SpecOutcome
  | dispatched : SpecOutcome
deriving DecidableEq

/-- Modelled from the spec: `process_message`, the states of §4.4
evaluated in order — Unauthorized, CommandRouting ("text begins with a
recognized control command"), SizeCheck ("free-text exceeding the
configured maximum length is rejected without reaching the process"),
RateCheck ("time since this sender's last accepted free-text message is
below the configured minimum interval → rejected … not queued"), then
Dispatch.  Returns the outcome, the new state, and the number of
`sendCommand` calls made. -/
def process_message (cfg : SpecBridgeConfig) (st : SpecBridgeState)
    (sender : Nat) (text : Str) (now : Nat) : SpecOutcome × SpecBridgeState × Nat :=
  if sender ≠ cfg.authorizedUser then (.unauthorized, st, 0)
  else if cfg.controlCommands.any (fun c => startsWithStr c text) then
    (.routedCommand, st, 0)
  else if cfg.maxMessageLength < text.length then (.tooLong, st, 0)
  else
    match st.lastMessageTime with
    | some t =>
      if now - t < cfg.minInterval then (.rateLimited, st, 0)
      else (.dispatched, ⟨some now⟩, 1)
    | none => (.dispatched, ⟨some now⟩, 1)

/-- Repeated `get_output` calls: collected outputs and the final queue. -/
def iterate_get_output : Nat → List Str → List Str × List Str
  | 0, q => ([], q)
  | n + 1, q =>
    let r := get_output q
    let rest := iterate_get_output n r.2
    (r.1.toList ++ rest.1, rest.2)

/-! ### Helper lemmas -/

theorem mem_drop_append_self {α : Type} (x : α) :
    ∀ (q : List α) (k : Nat), k ≤ q.length → x ∈ (q ++ [x]).drop k
  | _, 0, _ => by simp
  | [], k + 1, h => by simp at h
  | c :: q, k + 1, h => by
    simpa using mem_drop_append_self x q k (Nat.le_of_succ_le_succ h)

theorem mem_appendBounded (q : List Str) (x : Str) : x ∈ appendBounded q x := by
  simp only [appendBounded]
  split
  · exact mem_drop_append_self x q _
      (by simp only [List.length_append, List.length_cons, List.length_nil]; omega)
  · simp

theorem mem_pushWindow (r : List Str) (x : Str) : x ∈ pushWindow r x := by
  simp only [pushWindow]
  split
  · exact mem_drop_append_self x r _
      (by simp only [List.length_append, List.length_cons, List.length_nil]; omega)
  · simp

theorem dropWhile_eq_self_of_forall {p : Char → Bool} {s : Str}
    (h : ∀ c ∈ s, p c = false) : s.dropWhile p = s := by
  cases s with
  | nil => rfl
  | cons c rest => simp [List.dropWhile_cons, h c (by simp)]

theorem pyStrip_eq_self {s : Str} (h : ∀ c ∈ s, isPySpace c = false) :
    pyStrip s = s := by
  unfold pyStrip
  rw [dropWhile_eq_self_of_forall h,
      dropWhile_eq_self_of_forall (fun c hc => h c (by simpa using hc)),
      List.reverse_reverse]

/-! ### C1 and C10: `send_command` -/

/-- C1: with the agent running and the write succeeding, `send_command`
writes exactly the command followed by one CRLF line terminator to the
terminal, reports success, and leaves `waiting_for_input` false and
`input_prompt` empty, regardless of their prior values. -/
theorem send_command_ok_spec (st : AgentState) (cmd : Str)
    (h : st.is_running_flag = true) :
    send_command st cmd .ok =
      (("Command sent").toList,
       { st with waiting_for_input := false, input_prompt := [] },
       some (cmd ++ ['\r', '\n'])) := by
  simp [send_command, h]

theorem send_command_ok_spec_witness :
    send_command ⟨true, true, [' '], 5, []⟩ (("ls").toList) .ok =
      (("Command sent").toList, ⟨true, false, [], 5, []⟩,
       some (("ls").toList ++ ['\r', '\n'])) :=
  send_command_ok_spec ⟨true, true, [' '], 5, []⟩ (("ls").toList) rfl

/-- C10: `send_command` on a running agent clears `waiting_for_input` and
`input_prompt` before attempting the write, so they are cleared after the
call for every write outcome; when the write raises, the error result is
returned with the prompt state still cleared, not restored. -/
theorem send_command_clears_prompt_state (st : AgentState) (cmd : Str)
    (w : WriteOutcome) (h : st.is_running_flag = true) :
    (send_command st cmd w).2.1.waiting_for_input = false ∧
    (send_command st cmd w).2.1.input_prompt = [] ∧
    ∀ e, w = .err e →
      send_command st cmd w =
        (("Error: ").toList ++ e,
         { st with waiting_for_input := false, input_prompt := [] }, none) := by
  cases w <;> simp [send_command, h]

theorem send_command_clears_prompt_state_witness :
    (send_command ⟨true, true, [' '], 5, []⟩ (("ls").toList)
        (.err (("boom").toList))).2.1.waiting_for_input = false ∧
    (send_command ⟨true, true, [' '], 5, []⟩ (("ls").toList)
        (.err (("boom").toList))).2.1.input_prompt = [] ∧
    ∀ e, WriteOutcome.err (("boom").toList) = .err e →
      send_command ⟨true, true, [' '], 5, []⟩ (("ls").toList)
          (.err (("boom").toList)) =
        (("Error: ").toList ++ e, ⟨true, false, [], 5, []⟩, none) :=
  send_command_clears_prompt_state ⟨true, true, [' '], 5, []⟩
    (("ls").toList) (.err (("boom").toList)) rfl

/-! ### C9: an oversized head fragment blocks the queue -/

/-- C9: when the oldest queued fragment is itself longer than 4000
characters, `get_output` pops it, pushes it back unchanged and returns
nothing, leaving the queue exactly as before; any number of subsequent
calls still deliver nothing and leave the queue unchanged. -/
theorem oversized_head_blocks_queue (s : Str) (q : List Str)
    (h : 4000 < s.length) :
    get_output (s :: q) = (none, s :: q) ∧
    ∀ n, iterate_get_output n (s :: q) = ([], s :: q) := by
  have hstep : get_output (s :: q) = (none, s :: q) := by
    simp [get_output, drainOutput, h, pyStrip]
  refine ⟨hstep, fun n => ?_⟩
  induction n with
  | zero => rfl
  | succ m ih => simp [iterate_get_output, hstep, ih]

theorem oversized_head_blocks_queue_witness :
    get_output (List.replicate 4001 'a' :: [("later").toList]) =
      (none, List.replicate 4001 'a' :: [("later").toList]) ∧
    ∀ n, iterate_get_output n (List.replicate 4001 'a' :: [("later").toList]) =
      ([], List.replicate 4001 'a' :: [("later").toList]) :=
  oversized_head_blocks_queue (List.replicate 4001 'a') [("later").toList]
    (by simp only [List.length_replicate]; omega)

/-! ### C2: `get_output` drains under the 4000-character soft cap -/

theorem drainOutput_take_drop (q : List Str) (acc : Str) :
    ∃ k, (drainOutput q acc).2 = q.drop k ∧
      (drainOutput q acc).1 = acc ++ (q.take k).flatten := by
  induction q generalizing acc with
  | nil => exact ⟨0, by simp [drainOutput]⟩
  | cons chunk rest ih =>
    by_cases h1 : acc.length < 4000
    · by_cases h2 : 4000 < (acc ++ chunk).length
      · exact ⟨0, by simp only [drainOutput, if_pos h1, if_pos h2]; simp⟩
      · obtain ⟨k, hk1, hk2⟩ := ih (acc ++ chunk)
        refine ⟨k + 1, ?_, ?_⟩
        · simp only [drainOutput, if_pos h1, if_neg h2, hk1, List.drop_succ_cons]
        · simp only [drainOutput, if_pos h1, if_neg h2, hk2, List.take_succ_cons,
            List.flatten_cons, List.append_assoc]
    · exact ⟨0, by simp only [drainOutput, if_neg h1]; simp⟩

theorem drainOutput_length_le (q : List Str) (acc : Str)
    (h : acc.length ≤ 4000) : (drainOutput q acc).1.length ≤ 4000 := by
  induction q generalizing acc with
  | nil => simpa [drainOutput] using h
  | cons chunk rest ih =>
    by_cases h1 : acc.length < 4000
    · by_cases h2 : 4000 < (acc ++ chunk).length
      · simpa only [drainOutput, if_pos h1, if_pos h2] using h
      · simpa only [drainOutput, if_pos h1, if_neg h2] using
          ih (acc ++ chunk) (by simp only [List.length_append] at h2 ⊢; omega)
    · simpa only [drainOutput, if_neg h1] using h

theorem drainOutput_stop (q : List Str) (acc : Str) (c : Str) (rest : List Str)
    (h : (drainOutput q acc).2 = c :: rest) :
    4000 ≤ (drainOutput q acc).1.length ∨
    4000 < ((drainOutput q acc).1 ++ c).length := by
  induction q generalizing acc with
  | nil => simp [drainOutput] at h
  | cons chunk rest0 ih =>
    by_cases h1 : acc.length < 4000
    · by_cases h2 : 4000 < (acc ++ chunk).length
      · simp only [drainOutput, if_pos h1, if_pos h2] at h ⊢
        right
        cases h
        exact h2
      · simp only [drainOutput, if_pos h1, if_neg h2] at h ⊢
        exact ih (acc ++ chunk) h
    · simp only [drainOutput, if_neg h1] at h ⊢
      omega

theorem get_output_eq (q : List Str) (hq : q ≠ []) :
    get_output q =
      (if (pyStrip (drainOutput q []).1).isEmpty then none
       else some (pyStrip (drainOutput q []).1), (drainOutput q []).2) := by
  have h0 : q.isEmpty = false := by
    cases q with
    | nil => exact absurd rfl hq
    | cons a l => rfl
  by_cases hb : (pyStrip (drainOutput q []).1).isEmpty = true
  · simp [get_output, h0, hb]
  · simp [get_output, h0, hb]

theorem drainOutput_all_fits (q : List Str) (acc : Str)
    (hne : ∀ s ∈ q, s ≠ []) (h : (acc ++ q.flatten).length ≤ 4000) :
    drainOutput q acc = (acc ++ q.flatten, []) := by
  induction q generalizing acc with
  | nil => simp [drainOutput]
  | cons chunk rest ih =>
    simp only [List.flatten_cons, List.length_append] at h
    have hc : chunk ≠ [] := hne chunk (by simp)
    have hclen : 1 ≤ chunk.length := by
      cases chunk with
      | nil => exact absurd rfl hc
      | cons a b => simp
    have h1 : acc.length < 4000 := by omega
    have h2 : ¬4000 < (acc ++ chunk).length := by
      simp only [List.length_append]; omega
    have := ih (acc ++ chunk) (fun s hs => hne s (by simp [hs]))
      (by simp only [List.length_append]; omega)
    simp only [drainOutput, if_pos h1, if_neg h2, this, List.append_assoc,
      List.flatten_cons]

/-- C2: `get_output` drains the queue by concatenating whole fragments up
to the 4000-character soft cap.  In general: the remaining queue is a
suffix of the original (fragments are pushed back, never split), the
combined text has at most 4000 characters, the call returns the stripped
combined text unless the queue was empty or that text is blank, and when
fragments remain, taking the next one would have exceeded the cap (or the
cap is already reached).  Scenario: for a queue of nonempty, blank-free
fragments of at most 1000 characters totalling 5000, the first call
returns one chunk of at most 4000 characters and the second call returns
exactly the remainder. -/
theorem get_output_drain_spec (q : List Str) :
    (q = [] → get_output q = (none, q)) ∧
    (∃ k, (get_output q).2 = q.drop k ∧
       ((q.take k).flatten).length ≤ 4000 ∧
       (get_output q).1 =
         (if (pyStrip (q.take k).flatten).isEmpty then none
          else some (pyStrip (q.take k).flatten)) ∧
       (∀ c rest, (get_output q).2 = c :: rest →
          4000 ≤ ((q.take k).flatten).length ∨
          4000 < ((q.take k).flatten ++ c).length)) ∧
    ((∀ s ∈ q, s.length ≤ 1000 ∧ s ≠ [] ∧ ∀ ch ∈ s, isPySpace ch = false) →
       (q.flatten).length = 5000 →
       ∃ s1 q' s2, get_output q = (some s1, q') ∧ s1.length ≤ 4000 ∧
         get_output q' = (some s2, []) ∧ s1 ++ s2 = q.flatten) := by
  refine ⟨fun hq => by subst hq; rfl, ?_, ?_⟩
  · by_cases hq : q = []
    · subst hq
      refine ⟨0, by rfl, by simp, by simp [get_output, pyStrip], ?_⟩
      intro c rest h
      simp [get_output] at h
    · obtain ⟨k, hk1, hk2⟩ := drainOutput_take_drop q []
      have hk2' : (drainOutput q []).1 = (q.take k).flatten := by
        simpa using hk2
      have hlen : ((q.take k).flatten).length ≤ 4000 := by
        have := drainOutput_length_le q [] (by simp)
        rwa [hk2'] at this
      refine ⟨k, ?_, hlen, ?_, ?_⟩
      · rw [get_output_eq q hq, hk1]
      · rw [get_output_eq q hq, hk2']
      · intro c rest h
        rw [get_output_eq q hq] at h
        have := drainOutput_stop q [] c rest h
        rwa [hk2'] at this
  · intro hfrag htot
    have hq : q ≠ [] := by
      intro h
      subst h
      simp at htot
    obtain ⟨k, hk1, hk2⟩ := drainOutput_take_drop q []
    have hk2' : (drainOutput q []).1 = (q.take k).flatten := by simpa using hk2
    have hsplit : (q.take k).flatten ++ (q.drop k).flatten = q.flatten := by
      rw [← List.flatten_append, List.take_append_drop]
    have hlen1 : ((q.take k).flatten).length ≤ 4000 := by
      have := drainOutput_length_le q [] (by simp)
      rwa [hk2'] at this
    have hlens : ((q.take k).flatten).length + ((q.drop k).flatten).length = 5000 := by
      have := congrArg List.length hsplit
      simp only [List.length_append] at this
      omega
    have hq'ne : q.drop k ≠ [] := by
      intro h
      rw [h] at hlens
      simp only [List.flatten_nil, List.length_nil, Nat.add_zero] at hlens
      omega
    have hnospace1 : ∀ ch ∈ (q.take k).flatten, isPySpace ch = false := by
      intro ch hch
      obtain ⟨l, hl, hchl⟩ := List.mem_flatten.mp hch
      exact (hfrag l (List.take_subset k q hl)).2.2 ch hchl
    have hnospace2 : ∀ ch ∈ (q.drop k).flatten, isPySpace ch = false := by
      intro ch hch
      obtain ⟨l, hl, hchl⟩ := List.mem_flatten.mp hch
      exact (hfrag l (List.drop_subset k q hl)).2.2 ch hchl
    obtain ⟨c, rest, hcr⟩ : ∃ c rest, q.drop k = c :: rest := by
      cases hd : q.drop k with
      | nil => exact absurd hd hq'ne
      | cons c rest => exact ⟨c, rest, rfl⟩
    have hclen : c.length ≤ 1000 := by
      have hcq : c ∈ q := List.drop_subset k q (by rw [hcr]; simp)
      exact (hfrag c hcq).1
    have hstop := drainOutput_stop q [] c rest (by rw [hk1, hcr])
    rw [hk2'] at hstop
    have hbig : 3000 ≤ ((q.take k).flatten).length := by
      rcases hstop with h | h
      · omega
      · rw [List.length_append] at h
        omega
    have h1ne : pyStrip ((q.take k).flatten) = (q.take k).flatten :=
      pyStrip_eq_self hnospace1
    have h2ne : pyStrip ((q.drop k).flatten) = (q.drop k).flatten :=
      pyStrip_eq_self hnospace2
    have h1emp : ((q.take k).flatten).isEmpty = false := by
      cases he : (q.take k).flatten with
      | nil => rw [he] at hbig; simp at hbig
      | cons a l => rfl
    have h2emp : ((q.drop k).flatten).isEmpty = false := by
      cases he : (q.drop k).flatten with
      | nil =>
        rw [he] at hlens
        simp only [List.length_nil, Nat.add_zero] at hlens
        omega
      | cons a l => rfl
    refine ⟨(q.take k).flatten, q.drop k, (q.drop k).flatten, ?_, hlen1, ?_, hsplit⟩
    · rw [get_output_eq q hq, hk2', hk1, h1ne, h1emp]
      rfl
    · have hfits := drainOutput_all_fits (q.drop k) []
        (fun s hs => (hfrag s (List.drop_subset k q hs)).2.1)
        (by simp only [List.nil_append]; omega)
      rw [get_output_eq (q.drop k) hq'ne, hfits]
      simp only [List.nil_append, h2ne, h2emp]
      rfl

theorem get_output_drain_spec_witness :
    ∃ s1 q' s2,
      get_output (List.replicate 5 (List.replicate 1000 'a')) = (some s1, q') ∧
      s1.length ≤ 4000 ∧ get_output q' = (some s2, []) ∧
      s1 ++ s2 = (List.replicate 5 (List.replicate 1000 'a')).flatten :=
  (get_output_drain_spec (List.replicate 5 (List.replicate 1000 'a'))).2.2
    (by
      intro s hs
      rw [List.eq_of_mem_replicate hs]
      refine ⟨by rw [List.length_replicate], ?_, ?_⟩
      · intro h
        have h0 := congrArg List.length h
        rw [List.length_replicate, List.length_nil] at h0
        omega
      · intro ch hch
        rw [List.eq_of_mem_replicate hch]
        rfl)
    (by rw [List.flatten_replicate_replicate, List.length_replicate])

/-! ### C3: the "mostly empty" UI filter in `_process_output` -/

/-- C3: a cleaned fragment classified as decorative UI by the
"mostly empty" rule is not appended to the output queue (the state is
unchanged) — unless a configured welcome-screen or mode-switch keyword is
present in it, in which case it is enqueued even though visually
sparse. -/
theorem process_output_ui_filter (cfg : AgentConfig) (pm : Str → Bool)
    (now : Nat) (st : AgentState) (output : Str) :
    (is_mostly_empty_ui (strip_ansi_codes output) = true →
     is_welcome_screen cfg (strip_ansi_codes output) = false →
     is_mode_switch cfg (strip_ansi_codes output) = false →
       process_output cfg pm now st output = st) ∧
    ((is_welcome_screen cfg (strip_ansi_codes output) = true ∨
      is_mode_switch cfg (strip_ansi_codes output) = true) →
       (process_output cfg pm now st output).output_queue =
         appendBounded st.output_queue (strip_ansi_codes output) ∧
       strip_ansi_codes output ∈ (process_output cfg pm now st output).output_queue) := by
  constructor
  · intro hui hw hm
    simp [process_output, hui, hw, hm]
  · intro hwm
    have hcond : (!is_welcome_screen cfg (strip_ansi_codes output) &&
        !is_mode_switch cfg (strip_ansi_codes output) &&
        is_mostly_empty_ui (strip_ansi_codes output)) = false := by
      rcases hwm with h | h <;> simp [h]
    refine ⟨?_, ?_⟩
    · simp only [process_output, hcond, Bool.false_eq_true, if_false]
      by_cases hp : pm (strip_ansi_codes output) = true <;> simp [hp]
    · simp only [process_output, hcond, Bool.false_eq_true, if_false]
      by_cases hp : pm (strip_ansi_codes output) = true <;>
        simp [hp, mem_appendBounded]

theorem process_output_ui_filter_witness :
    (process_output ⟨[['╭', '╭']], [], [], [], []⟩ (fun _ => false) 0
        ⟨true, false, [], 0, []⟩ ['╭', '╭']).output_queue =
      appendBounded [] (strip_ansi_codes ['╭', '╭']) ∧
    strip_ansi_codes ['╭', '╭'] ∈
      (process_output ⟨[['╭', '╭']], [], [], [], []⟩ (fun _ => false) 0
        ⟨true, false, [], 0, []⟩ ['╭', '╭']).output_queue :=
  (process_output_ui_filter ⟨[['╭', '╭']], [], [], [], []⟩ (fun _ => false) 0
      ⟨true, false, [], 0, []⟩ ['╭', '╭']).2 (Or.inl (by decide))

/-! ### C7: `/start` is idempotent for the relay loop -/

/-- C7: handling `/start` while the agent is already running replies
"already running" and changes nothing — the agent is not started again
and no second output-monitor task is created; consequently, starting from
a stopped agent with no monitor task, a successful `/start` followed by
another `/start` performs exactly one start and one monitor launch. -/
theorem start_idempotent (bst : BridgeState) (u : Nat) (ss : Bool)
    (hrun : bst.agent.is_running_flag = true) :
    handle_command bst u u (("/start").toList) ss =
      ([("ℹ️ Agent already running").toList], bst) ∧
    ∀ bst0 : BridgeState, bst0.agent.is_running_flag = false →
      bst0.output_monitor_task = false →
      ((handle_command ((handle_command bst0 u u (("/start").toList) true).2) u u
          (("/start").toList) ss).2.monitor_launches = bst0.monitor_launches + 1 ∧
       (handle_command ((handle_command bst0 u u (("/start").toList) true).2) u u
          (("/start").toList) ss).2.start_calls = bst0.start_calls + 1) := by
  constructor
  · simp [handle_command, hrun]
  · intro bst0 h0 hm0
    have hfirst : (handle_command bst0 u u (("/start").toList) true).2 =
        { bst0 with agent := { bst0.agent with is_running_flag := true },
                    output_monitor_task := true,
                    monitor_launches := bst0.monitor_launches + 1,
                    start_calls := bst0.start_calls + 1 } := by
      simp [handle_command, h0, hm0, agent_start]
    rw [hfirst]
    simp [handle_command]

theorem start_idempotent_witness :
    handle_command ⟨⟨true, false, [], 0, []⟩, true, 1, 1⟩ 7 7
        (("/start").toList) true =
      ([("ℹ️ Agent already running").toList], ⟨⟨true, false, [], 0, []⟩, true, 1, 1⟩) ∧
    ∀ bst0 : BridgeState, bst0.agent.is_running_flag = false →
      bst0.output_monitor_task = false →
      ((handle_command ((handle_command bst0 7 7 (("/start").toList) true).2) 7 7
          (("/start").toList) true).2.monitor_launches = bst0.monitor_launches + 1 ∧
       (handle_command ((handle_command bst0 7 7 (("/start").toList) true).2) 7 7
          (("/start").toList) true).2.start_calls = bst0.start_calls + 1) :=
  start_idempotent ⟨⟨true, false, [], 0, []⟩, true, 1, 1⟩ 7 true rfl

/-! ### C8: a failed write is not reported to the user -/

/-- C8 counterexample: with the agent running and the terminal write
raising `boom`, `send_command` returns the error string, yet
`handle_message` replies only with the success acknowledgment
`📤 Command sent: hi` — the user receives no error message. -/
theorem dispatch_failure_counterexample :
    (send_command ⟨true, false, [], 0, []⟩ (("hi").toList)
        (.err (("boom").toList))).1 = ("Error: boom").toList ∧
    (handle_message ⟨true, false, [], 0, []⟩ 1 1 (("hi").toList)
        (.err (("boom").toList)) []).replies =
      [("📤 Command sent: hi").toList] := by
  constructor
  · rfl
  · rfl

/-- C8 amended: when the agent is not running, the user does receive an
error notice ("Agent not running") and `send_command` is never called;
but when the agent is running and the write fails, `send_command`'s error
result is discarded — the replies are exactly the success acknowledgment
followed by any pending output, with no error notice. -/
theorem dispatch_failure_amended (st : AgentState) (u : Nat) (text : Str)
    (e : Str) (arrivals : List Str) :
    (st.is_running_flag = false →
       (handle_message st u u text (.err e) arrivals).replies =
         [("❌ Agent not running. Use /start").toList] ∧
       (handle_message st u u text (.err e) arrivals).send_command_calls = 0) ∧
    (st.is_running_flag = true →
       (handle_message st u u text (.err e) arrivals).send_command_calls = 1 ∧
       (handle_message st u u text (.err e) arrivals).written = none ∧
       (handle_message st u u text (.err e) arrivals).replies =
         (("📤 Command sent: ").toList ++ pyStrip text) ::
           (get_output (arrivals.foldl appendBounded st.output_queue)).1.toList) := by
  constructor
  · intro h0
    constructor <;> simp [handle_message, h0]
  · intro h1
    have hsc : send_command st (pyStrip text) (.err e) =
        (("Error: ").toList ++ e,
         { st with waiting_for_input := false, input_prompt := [] }, none) := by
      simp [send_command, h1]
    refine ⟨?_, ?_, ?_⟩ <;>
      · simp only [handle_message, h1, Bool.not_true, Bool.false_eq_true,
          if_false, if_neg (by omega : ¬u ≠ u), hsc]
        cases hgo : (get_output (arrivals.foldl appendBounded st.output_queue)).1 <;>
          simp [hgo]

theorem dispatch_failure_amended_witness :
    ((⟨false, false, [], 0, []⟩ : AgentState).is_running_flag = false →
       (handle_message ⟨false, false, [], 0, []⟩ 2 2 (("hi").toList)
          (.err (("boom").toList)) []).replies =
         [("❌ Agent not running. Use /start").toList] ∧
       (handle_message ⟨false, false, [], 0, []⟩ 2 2 (("hi").toList)
          (.err (("boom").toList)) []).send_command_calls = 0) ∧
    ((⟨false, false, [], 0, []⟩ : AgentState).is_running_flag = true →
       (handle_message ⟨false, false, [], 0, []⟩ 2 2 (("hi").toList)
          (.err (("boom").toList)) []).send_command_calls = 1 ∧
       (handle_message ⟨false, false, [], 0, []⟩ 2 2 (("hi").toList)
          (.err (("boom").toList)) []).written = none ∧
       (handle_message ⟨false, false, [], 0, []⟩ 2 2 (("hi").toList)
          (.err (("boom").toList)) []).replies =
         (("📤 Command sent: ").toList ++ pyStrip (("hi").toList)) ::
           (get_output (List.foldl appendBounded
             (⟨false, false, [], 0, []⟩ : AgentState).output_queue [])).1.toList) :=
  dispatch_failure_amended ⟨false, false, [], 0, []⟩ 2 (("hi").toList)
    (("boom").toList) []

/-! ### C4 and C5: size limit and rate limit (spec-modelled) -/

/-- C4 (spec-modelled): an authorized free-text message exactly at the
configured maximum length passes the size check and is dispatched (one
`sendCommand` call), while a message one character over the maximum is
rejected with the size-limit notice and `sendCommand` is never called. -/
theorem size_limit_boundary (cfg : SpecBridgeConfig) (st : SpecBridgeState)
    (sender : Nat) (text : Str) (now : Nat)
    (hauth : sender = cfg.authorizedUser)
    (hfree : ∀ c ∈ cfg.controlCommands, startsWithStr c text = false)
    (hrate : ∀ t, st.lastMessageTime = some t → cfg.minInterval ≤ now - t) :
    (text.length = cfg.maxMessageLength →
       process_message cfg st sender text now = (.dispatched, ⟨some now⟩, 1)) ∧
    (text.length = cfg.maxMessageLength + 1 →
       process_message cfg st sender text now = (.tooLong, st, 0)) := by
  have hno : (cfg.controlCommands.any (fun c => startsWithStr c text)) = false := by
    rw [List.any_eq_false]
    intro c hc
    simp [hfree c hc]
  constructor
  · intro hlen
    have hsz : ¬cfg.maxMessageLength < text.length := by omega
    cases hlast : st.lastMessageTime with
    | none => simp [process_message, hauth, hno, hsz, hlast]
    | some t =>
      have hge := hrate t hlast
      have hlt : ¬now - t < cfg.minInterval := by omega
      simp [process_message, hauth, hno, hsz, hlast, hlt]
  · intro hlen
    have hsz : cfg.maxMessageLength < text.length := by omega
    simp [process_message, hauth, hno, hsz]

theorem size_limit_boundary_witness :
    ((List.replicate 5 'a').length = 5 →
       process_message ⟨1, [("/start").toList], 5, 10⟩ ⟨none⟩ 1
          (List.replicate 5 'a') 100 = (.dispatched, ⟨some 100⟩, 1)) ∧
    ((List.replicate 5 'a').length = 5 + 1 →
       process_message ⟨1, [("/start").toList], 5, 10⟩ ⟨none⟩ 1
          (List.replicate 5 'a') 100 = (.tooLong, ⟨none⟩, 0)) ∧
    process_message ⟨1, [("/start").toList], 5, 10⟩ ⟨none⟩ 1
        (List.replicate 6 'a') 100 = (.tooLong, ⟨none⟩, 0) := by
  refine ⟨(size_limit_boundary ⟨1, [("/start").toList], 5, 10⟩ ⟨none⟩ 1
      (List.replicate 5 'a') 100 rfl (by decide) (by intro t ht; cases ht)).1,
    (size_limit_boundary ⟨1, [("/start").toList], 5, 10⟩ ⟨none⟩ 1
      (List.replicate 5 'a') 100 rfl (by decide) (by intro t ht; cases ht)).2,
    (size_limit_boundary ⟨1, [("/start").toList], 5, 10⟩ ⟨none⟩ 1
      (List.replicate 6 'a') 100 rfl (by decide) (by intro t ht; cases ht)).2 (by decide)⟩

/-- C5 (spec-modelled): of two authorized free-text messages from the
same sender separated by less than the configured minimum interval, the
first is dispatched and the second is rejected with the "please wait"
notice; `sendCommand` is called exactly once, for the first message. -/
theorem rate_limit_two_messages (cfg : SpecBridgeConfig) (st : SpecBridgeState)
    (sender : Nat) (m1 m2 : Str) (t1 t2 : Nat)
    (hauth : sender = cfg.authorizedUser)
    (h1free : ∀ c ∈ cfg.controlCommands, startsWithStr c m1 = false)
    (h2free : ∀ c ∈ cfg.controlCommands, startsWithStr c m2 = false)
    (h1len : m1.length ≤ cfg.maxMessageLength)
    (h2len : m2.length ≤ cfg.maxMessageLength)
    (hfirst : st.lastMessageTime = none)
    (hclose : t2 - t1 < cfg.minInterval) :
    process_message cfg st sender m1 t1 = (.dispatched, ⟨some t1⟩, 1) ∧
    process_message cfg ⟨some t1⟩ sender m2 t2 = (.rateLimited, ⟨some t1⟩, 0) ∧
    (process_message cfg st sender m1 t1).2.2 +
      (process_message cfg ⟨some t1⟩ sender m2 t2).2.2 = 1 := by
  have h1no : (cfg.controlCommands.any (fun c => startsWithStr c m1)) = false := by
    rw [List.any_eq_false]
    intro c hc
    simp [h1free c hc]
  have h2no : (cfg.controlCommands.any (fun c => startsWithStr c m2)) = false := by
    rw [List.any_eq_false]
    intro c hc
    simp [h2free c hc]
  have hs1 : ¬cfg.maxMessageLength < m1.length := by omega
  have hs2 : ¬cfg.maxMessageLength < m2.length := by omega
  have e1 : process_message cfg st sender m1 t1 = (.dispatched, ⟨some t1⟩, 1) := by
    simp [process_message, hauth, h1no, hfirst, hs1]
  have e2 : process_message cfg ⟨some t1⟩ sender m2 t2 = (.rateLimited, ⟨some t1⟩, 0) := by
    simp [process_message, hauth, h2no, hclose, hs2]
  exact ⟨e1, e2, by rw [e1, e2]; rfl⟩

theorem rate_limit_two_messages_witness :
    process_message ⟨1, [("/start").toList], 5, 10⟩ ⟨none⟩ 1 (("hi").toList) 100 =
      (.dispatched, ⟨some 100⟩, 1) ∧
    process_message ⟨1, [("/start").toList], 5, 10⟩ ⟨some 100⟩ 1 (("yo").toList) 105 =
      (.rateLimited, ⟨some 100⟩, 0) ∧
    (process_message ⟨1, [("/start").toList], 5, 10⟩ ⟨none⟩ 1
        (("hi").toList) 100).2.2 +
      (process_message ⟨1, [("/start").toList], 5, 10⟩ ⟨some 100⟩ 1
        (("yo").toList) 105).2.2 = 1 :=
  rate_limit_two_messages ⟨1, [("/start").toList], 5, 10⟩ ⟨none⟩ 1
    (("hi").toList) (("yo").toList) 100 105 rfl (by decide) (by decide)
    (by decide) (by decide) rfl (by decide)

/-! ### C6: the dedup window of the relay loop -/

theorem sentList_nil (cfg : AgentConfig) (recent : List Str) :
    sentList cfg recent [] = [] := rfl

theorem recentAfter_nil (cfg : AgentConfig) (recent : List Str) :
    recentAfter cfg recent [] = recent := rfl

theorem sentList_cons (cfg : AgentConfig) (recent : List Str) (b : Str)
    (bs : List Str) :
    sentList cfg recent (b :: bs) =
      (output_monitor_step cfg recent b).1 ::
        sentList cfg (output_monitor_step cfg recent b).2 bs := rfl

theorem recentAfter_cons (cfg : AgentConfig) (recent : List Str) (b : Str)
    (bs : List Str) :
    recentAfter cfg recent (b :: bs) =
      recentAfter cfg (output_monitor_step cfg recent b).2 bs := rfl

theorem monitor_run_append (cfg : AgentConfig) (xs ys : List Str) :
    ∀ recent,
      sentList cfg recent (xs ++ ys) =
        sentList cfg recent xs ++ sentList cfg (recentAfter cfg recent xs) ys ∧
      recentAfter cfg recent (xs ++ ys) =
        recentAfter cfg (recentAfter cfg recent xs) ys := by
  induction xs with
  | nil => intro recent; simp [sentList_nil, recentAfter_nil]
  | cons x xs ih =>
    intro recent
    rw [List.cons_append, sentList_cons, sentList_cons, recentAfter_cons,
      recentAfter_cons, (ih _).1, (ih _).2, List.cons_append]
    exact ⟨rfl, rfl⟩

/-- What one monitor step can do: suppress leaving the window unchanged,
suppress while recording the fingerprint, or (only when the fingerprint
is not in the window) relay the cleaned block and record the
fingerprint. -/
theorem output_monitor_step_eq (cfg : AgentConfig) (recent : List Str) (b : Str) :
    output_monitor_step cfg recent b = (none, recent) ∨
    output_monitor_step cfg recent b =
      (none, pushWindow recent (fingerprint b)) ∨
    (fingerprint b ∉ recent ∧
     output_monitor_step cfg recent b =
       (some (monitorClean b), pushWindow recent (fingerprint b))) := by
  unfold output_monitor_step
  split
  · split
    · exact Or.inr (Or.inl rfl)
    · exact Or.inl rfl
  · next hcond =>
    refine Or.inr (Or.inr ⟨fun hm => hcond ?_, rfl⟩)
    simp [hm]

/-- A block whose fingerprint is in the window is suppressed, and its
fingerprint stays in the window. -/
theorem step_none_of_mem (cfg : AgentConfig) (recent : List Str) (b : Str)
    (h : fingerprint b ∈ recent) :
    (output_monitor_step cfg recent b).1 = none ∧
    fingerprint b ∈ (output_monitor_step cfg recent b).2 := by
  unfold output_monitor_step
  rw [if_pos (by simp [h])]
  refine ⟨rfl, ?_⟩
  split
  · exact mem_pushWindow recent _
  · exact h

/-- A relayed block's fingerprint is recorded in the window. -/
theorem step_mem_of_emitted (cfg : AgentConfig) (recent : List Str) (b : Str)
    (h : (output_monitor_step cfg recent b).1 ≠ none) :
    fingerprint b ∈ (output_monitor_step cfg recent b).2 := by
  rcases output_monitor_step_eq cfg recent b with he | he | ⟨_, he⟩
  · rw [he] at h; exact absurd rfl h
  · rw [he] at h; exact absurd rfl h
  · rw [he]; exact mem_pushWindow recent _

/-- Suppression is sticky for a fixed block: if the block's fingerprint
is in the window or the step suppresses it, the step suppresses it and
the same holds again at the updated window. -/
theorem step_sticky (cfg : AgentConfig) (recent : List Str) (b : Str)
    (h : fingerprint b ∈ recent ∨ (output_monitor_step cfg recent b).1 = none) :
    (output_monitor_step cfg recent b).1 = none ∧
    (fingerprint b ∈ (output_monitor_step cfg recent b).2 ∨
     (output_monitor_step cfg (output_monitor_step cfg recent b).2 b).1 = none) := by
  rcases h with h | h
  · obtain ⟨h1, h2⟩ := step_none_of_mem cfg recent b h
    exact ⟨h1, Or.inl h2⟩
  · refine ⟨h, ?_⟩
    rcases output_monitor_step_eq cfg recent b with he | he | ⟨_, he⟩
    · rw [he]
      exact Or.inr h
    · rw [he]
      exact Or.inl (mem_pushWindow recent _)
    · rw [he] at h
      exact absurd h (by simp)

theorem run_replicate_none (cfg : AgentConfig) (b : Str) :
    ∀ (m : Nat) (recent : List Str),
      (fingerprint b ∈ recent ∨ (output_monitor_step cfg recent b).1 = none) →
      sentList cfg recent (List.replicate m b) = List.replicate m none := by
  intro m
  induction m with
  | zero => intro recent _; rfl
  | succ n ih =>
    intro recent h
    obtain ⟨h1, h2⟩ := step_sticky cfg recent b h
    rw [List.replicate_succ, sentList_cons, h1, ih _ h2, List.replicate_succ]

/-- How many blocks of a run were relayed. -/
def sentCount (cfg : AgentConfig) (recent : List Str) (blocks : List Str) : Nat :=
  (sentList cfg recent blocks).countP Option.isSome

theorem countP_replicate_none (m : Nat) :
    (List.replicate m (none : Option Str)).countP Option.isSome = 0 := by
  rw [List.countP_eq_zero]
  intro a ha
  rw [List.eq_of_mem_replicate ha]
  simp

/-- C6: in the relay loop, a block whose normalized-whitespace
fingerprint is still in the dedup window is suppressed (the decision at
its position is `none`); a relayed block's fingerprint is recorded in the
window; and among consecutive blocks with identical fingerprints, at most
one — the first — is relayed, from any window state. -/
theorem dedup_window_suppresses (cfg : AgentConfig) (recent : List Str) :
    (∀ pre b post, fingerprint b ∈ recentAfter cfg recent pre →
       sentList cfg recent (pre ++ b :: post) =
         sentList cfg recent pre ++ none ::
           sentList cfg (recentAfter cfg recent (pre ++ [b])) post) ∧
    (∀ pre b,
       (output_monitor_step cfg (recentAfter cfg recent pre) b).1 ≠ none →
       fingerprint b ∈ recentAfter cfg recent (pre ++ [b])) ∧
    (∀ b n, sentCount cfg recent (List.replicate n b) ≤ 1) := by
  refine ⟨?_, ?_, ?_⟩
  · intro pre b post hmem
    rw [(monitor_run_append cfg pre (b :: post) recent).1, sentList_cons,
      (step_none_of_mem cfg _ b hmem).1,
      (monitor_run_append cfg pre [b] recent).2, recentAfter_cons, recentAfter_nil]
  · intro pre b hem
    rw [(monitor_run_append cfg pre [b] recent).2, recentAfter_cons, recentAfter_nil]
    exact step_mem_of_emitted cfg _ b hem
  · intro b n
    cases n with
    | zero => simp [sentCount, sentList_nil]
    | succ m =>
      rw [sentCount, List.replicate_succ, sentList_cons]
      rcases output_monitor_step_eq cfg recent b with he | he | ⟨hnm, he⟩
      · rw [run_replicate_none cfg b m _ (Or.inr (by simp [he]))]
        rw [he]
        simp [countP_replicate_none]
      · rw [run_replicate_none cfg b m _ (Or.inl (by rw [he]; exact mem_pushWindow recent _))]
        rw [he]
        simp [countP_replicate_none]
      · rw [run_replicate_none cfg b m _ (Or.inl (by rw [he]; exact mem_pushWindow recent _))]
        rw [he]
        simp [countP_replicate_none]

theorem dedup_window_suppresses_witness :
    sentList
        ⟨[("cline cli").toList], [("plan mode").toList],
         [['╭'], ['╰'], ['│'], ['┃'], ("/plan or /act").toList],
         [("###").toList], [("/plan or /act").toList]⟩ []
        ([("hello there friend").toList] ++ ("hello there friend").toList :: []) =
      sentList
        ⟨[("cline cli").toList], [("plan mode").toList],
         [['╭'], ['╰'], ['│'], ['┃'], ("/plan or /act").toList],
         [("###").toList], [("/plan or /act").toList]⟩ []
        [("hello there friend").toList] ++ none ::
        sentList
          ⟨[("cline cli").toList], [("plan mode").toList],
           [['╭'], ['╰'], ['│'], ['┃'], ("/plan or /act").toList],
           [("###").toList], [("/plan or /act").toList]⟩
          (recentAfter
            ⟨[("cline cli").toList], [("plan mode").toList],
             [['╭'], ['╰'], ['│'], ['┃'], ("/plan or /act").toList],
             [("###").toList], [("/plan or /act").toList]⟩ []
            ([("hello there friend").toList] ++ [("hello there friend").toList])) [] :=
  (dedup_window_suppresses
      ⟨[("cline cli").toList], [("plan mode").toList],
       [['╭'], ['╰'], ['│'], ['┃'], ("/plan or /act").toList],
       [("###").toList], [("/plan or /act").toList]⟩ []).1
    [("hello there friend").toList] (("hello there friend").toList) []
    (by decide)

end Router
